import Mathlib

/-!
Verification of the conversion-and-reporting pipeline of `app.py`
(document-to-Markdown converter).

The embedding models, from the source:
* `format_size` — the human-scale size formatter (1024-based units);
* `DocumentConverter.process_file` — temp-artifact lifecycle, engine call,
  empty-result check, broad exception handling (`process_file` for the
  outcome, `process_file_run` with an explicit artifact-event trace for the
  try/finally cleanup);
* the `main` upload loop — deduplicated session ledger (`conversion_stats`),
  success-only recording, per-file error surfacing (`step`, `runBatch`);
* the size-comparison view — reduction percentage, the "N/A" edge case,
  green/red improvement classification (`reduction`, `sizeRow`).

The external markitdown engine is out of scope and is abstracted as a
function `UploadedFile → EngineResult` covering its observable behaviours:
raising, returning a falsy result, returning a result object with an
optional text payload.

Numeric values are modelled over `ℚ`.  Every division the program performs
is by 1024 (a power of two, an exact exponent shift on binary floats) or by
an integer byte count, and the inputs the claims exercise are exactly
representable, so rational arithmetic coincides with the Python float
semantics on them.  Decimal formatting (`:.2f`, `:.1f`) is modelled by
exact round-half-to-even, which is what the correctly-rounded CPython float
formatting computes on exactly-representable values.
-/

/-- Two-digit zero-padded rendering of a natural number below 100,
used for the fractional part of a `:.2f` format. -/
def pad2 (n : ℕ) : String :=
  if n < 10 then "0" ++ toString n else toString n

/-- Round `n / d` to the nearest natural number, ties to even
(the rounding the CPython fixed-point float formatting performs). -/
def roundHalfEvenNat (n d : ℕ) : ℕ :=
  if d < 2 * (n % d) then n / d + 1
  else if 2 * (n % d) < d then n / d
  else if (n / d) % 2 = 0 then n / d else n / d + 1

/-- Round a nonnegative rational to the nearest natural number, ties to even. -/
def roundHalfEvenNN (x : ℚ) : ℕ :=
  roundHalfEvenNat x.num.toNat x.den

/-- Model of the Python format `f"{x:.2f}"`: exactly two decimal places. -/
def fmt2 (x : ℚ) : String :=
  (if x < 0 then "-" else "")
    ++ toString (roundHalfEvenNN (|x| * 100) / 100) ++ "."
    ++ pad2 (roundHalfEvenNN (|x| * 100) % 100)

/-- Model of the Python format `f"{x:.1f}"`: exactly one decimal place. -/
def fmt1 (x : ℚ) : String :=
  (if x < 0 then "-" else "")
    ++ toString (roundHalfEvenNN (|x| * 10) / 10) ++ "."
    ++ toString (roundHalfEvenNN (|x| * 10) % 10)

/-- The unit-stepping loop of `format_size`: walk the unit list, returning
as soon as the value drops below 1024, dividing by 1024 otherwise; when the
units are exhausted the value is rendered in TB. -/
def format_size_loop : ℚ → List String → String
  | x, [] => fmt2 x ++ " TB"
  | x, unit :: units =>
    if x < 1024 then fmt2 x ++ " " ++ unit
    else format_size_loop (x / 1024) units

/-- `format_size` from `app.py`: iterate over `['B', 'KB', 'MB', 'GB']`,
returning `f"{size:.2f} {unit}"` once the size is below 1024, else dividing
by 1024; fall through to `f"{size:.2f} TB"`. -/
def format_size (size_in_bytes : ℚ) : String :=
  format_size_loop size_in_bytes ["B", "KB", "MB", "GB"]

/-- An uploaded file: a name and the raw byte content.  `uploaded_file.size`
is the byte length of the buffer. -/
structure UploadedFile where
  name : String
  data : List ℕ
deriving DecidableEq

/-- `uploaded_file.size`: the byte length of the uploaded content. -/
def UploadedFile.size (f : UploadedFile) : ℕ := f.data.length

/-- Observable behaviours of `self.md.convert(tmp_path)`: it raises with a
message, returns a falsy result, or returns a result object whose
`text_content` may be absent (`none`) or any string. -/
inductive EngineResult where
  | raises (msg : String)
  | noResult
  | converted (text_content : Option String)
deriving DecidableEq

/-- The message of the `ValueError` raised for empty conversion results. -/
def emptyResultMsg : String := "Conversion yielded empty result."

/-- `DocumentConverter.process_file`, outcome only: the engine is invoked on
the materialized artifact; a falsy result or a falsy `text_content` raises
`ValueError("Conversion yielded empty result.")`; any exception is caught
and reported as `(False, str(e))`; otherwise `(True, result.text_content)`. -/
def process_file (engine : UploadedFile → EngineResult) (f : UploadedFile) :
    Bool × String :=
  match engine f with
  | .raises msg => (false, msg)
  | .noResult => (false, emptyResultMsg)
  | .converted none => (false, emptyResultMsg)
  | .converted (some t) => if t = "" then (false, emptyResultMsg) else (true, t)

/-- Lifecycle events of the temporary artifact. -/
inductive ArtifactEvent where
  | acquire
  | release
deriving DecidableEq

/-- Whether the temporary file currently exists on disk. -/
structure TempState where
  tmpExists : Bool
deriving DecidableEq

/-- `tempfile.NamedTemporaryFile(delete=False, ...)` + write: materializes
the artifact. -/
def acquireTmp : TempState × List ArtifactEvent :=
  (⟨true⟩, [ArtifactEvent.acquire])

/-- The `finally` block: `if os.path.exists(tmp_path): os.remove(tmp_path)`. -/
def releaseTmp (s : TempState) : TempState × List ArtifactEvent :=
  if s.tmpExists then (⟨false⟩, [ArtifactEvent.release]) else (s, [])

/-- `DocumentConverter.process_file` with the artifact lifecycle made
explicit: the temp file is created, the try/except body computes the
outcome without touching the file, and the `finally` block runs on every
exit path (the except clause converts any engine fault into a value, so
control always reaches it). -/
def process_file_run (engine : UploadedFile → EngineResult) (f : UploadedFile) :
    (Bool × String) × TempState × List ArtifactEvent :=
  let (s1, ev1) := acquireTmp
  let outcome := process_file engine f
  let (s2, ev2) := releaseTmp s1
  (outcome, s2, ev1 ++ ev2)

/-- One record of `st.session_state.conversion_stats`. -/
structure Entry where
  name : String
  original_size : ℕ
  converted_size : ℕ
  content : String
deriving DecidableEq

/-- `any(s['name'] == uploaded_file.name for s in st.session_state.conversion_stats)`. -/
def already_processed (stats : List Entry) (nm : String) : Bool :=
  stats.any fun s => s.name == nm

/-- The per-file failure message shown by `st.error`. -/
def errorMessage (f : UploadedFile) (content : String) : String :=
  "⚠️ Could not read [" ++ f.name ++ "]. Error: " ++ content

/-- Session state threaded through the upload loop: the ledger, the surfaced
error messages, and a count of conversion calls (one per `process_file`
invocation, for the no-re-conversion claims). -/
structure SessionState where
  conversion_stats : List Entry
  errors : List String
  calls : ℕ
deriving DecidableEq

/-- A fresh session: `st.session_state.conversion_stats = []`. -/
def initState : SessionState := ⟨[], [], 0⟩

/-- The body of the upload loop for one file: skip if the name is already in
the ledger; otherwise call `process_file` and either append a new entry
(with `original_size = uploaded_file.size` and
`converted_size = len(content.encode('utf-8'))`) or surface an error. -/
def step (engine : UploadedFile → EngineResult) (st : SessionState)
    (f : UploadedFile) : SessionState :=
  if already_processed st.conversion_stats f.name then st
  else
    match process_file engine f with
    | (true, content) =>
      { st with
        conversion_stats := st.conversion_stats ++
          [⟨f.name, f.size, content.utf8ByteSize, content⟩],
        calls := st.calls + 1 }
    | (false, content) =>
      { st with
        errors := st.errors ++ [errorMessage f content],
        calls := st.calls + 1 }

/-- `for uploaded_file in uploaded_files: ...` — fold the loop body over the
batch. -/
def runBatch (engine : UploadedFile → EngineResult) (st : SessionState) :
    List UploadedFile → SessionState
  | [] => st
  | f :: fs => runBatch engine (step engine st f) fs

/-- One row of the size-comparison tab. -/
structure SizeRow where
  orig_fmt : String
  new_fmt : String
  reduction_str : String
  color_class : String
deriving DecidableEq

/-- `((item['original_size'] - item['converted_size']) / item['original_size']) * 100`. -/
def reduction (e : Entry) : ℚ :=
  (((e.original_size : ℚ) - (e.converted_size : ℚ)) / (e.original_size : ℚ)) * 100

/-- The size-comparison row for one ledger entry: formatted sizes, the
reduction string (`f"{reduction:.1f}% smaller"`, or `"N/A"` when the
original size is 0), and the highlight class
(`"highlight-green" if reduction > 0 else "highlight-red"`, empty in the
`"N/A"` branch). -/
def sizeRow (e : Entry) : SizeRow :=
  if 0 < e.original_size then
    ⟨format_size (e.original_size : ℚ), format_size (e.converted_size : ℚ),
      fmt1 (reduction e) ++ "% smaller",
      if 0 < reduction e then "highlight-green" else "highlight-red"⟩
  else
    ⟨format_size (e.original_size : ℚ), format_size (e.converted_size : ℚ),
      "N/A", ""⟩

theorem roundHalfEvenNN_natCast (a : ℕ) : roundHalfEvenNN (a : ℚ) = a := by
  unfold roundHalfEvenNN
  rw [Rat.num_natCast, Rat.den_natCast]
  simp [roundHalfEvenNat, Nat.mod_one]

theorem fmt2_whole (a : ℕ) (x : ℚ) (h0 : 0 ≤ x) (h : x * 100 = (a : ℚ)) :
    fmt2 x = toString (a / 100) ++ "." ++ pad2 (a % 100) := by
  unfold fmt2
  rw [if_neg (not_lt.mpr h0), abs_of_nonneg h0, h, roundHalfEvenNN_natCast]
  simp

theorem fmt1_whole (a : ℕ) (x : ℚ) (h0 : 0 ≤ x) (h : x * 10 = (a : ℚ)) :
    fmt1 x = toString (a / 10) ++ "." ++ toString (a % 10) := by
  unfold fmt1
  rw [if_neg (not_lt.mpr h0), abs_of_nonneg h0, h, roundHalfEvenNN_natCast]
  simp

theorem fmt1_neg_whole (a : ℕ) (x : ℚ) (h0 : x < 0) (h : |x| * 10 = (a : ℚ)) :
    fmt1 x = "-" ++ (toString (a / 10) ++ "." ++ toString (a % 10)) := by
  unfold fmt1
  rw [if_pos h0, h, roundHalfEvenNN_natCast]
  simp [String.append_assoc]

theorem fmt1_neg_starts (x : ℚ) (h : x < 0) : ∃ rest, fmt1 x = "-" ++ rest := by
  unfold fmt1
  rw [if_pos h]
  refine ⟨toString (roundHalfEvenNN (|x| * 10) / 10) ++ "." ++
    toString (roundHalfEvenNN (|x| * 10) % 10), ?_⟩
  simp [String.append_assoc]

theorem format_size_loop_lt (x : ℚ) (u : String) (us : List String) (h : x < 1024) :
    format_size_loop x (u :: us) = fmt2 x ++ " " ++ u := by
  simp only [format_size_loop]
  rw [if_pos h]

theorem format_size_loop_ge (x : ℚ) (u : String) (us : List String) (h : 1024 ≤ x) :
    format_size_loop x (u :: us) = format_size_loop (x / 1024) us := by
  simp only [format_size_loop]
  rw [if_neg (not_lt.mpr h)]

theorem format_size_B (x : ℚ) (h : x < 1024) : format_size x = fmt2 x ++ " B" := by
  rw [format_size, format_size_loop_lt x _ _ h]
  simp [String.append_assoc]

theorem format_size_KB (x : ℚ) (h1 : 1024 ≤ x) (h2 : x < 1024 ^ 2) :
    format_size x = fmt2 (x / 1024) ++ " KB" := by
  rw [format_size, format_size_loop_ge x _ _ h1,
    format_size_loop_lt _ _ _ (by rw [div_lt_iff₀ (by norm_num : (0:ℚ) < 1024)]; nlinarith)]
  simp [String.append_assoc]

theorem format_size_MB (x : ℚ) (h1 : 1024 ^ 2 ≤ x) (h2 : x < 1024 ^ 3) :
    format_size x = fmt2 (x / 1024 ^ 2) ++ " MB" := by
  have p : (0:ℚ) < 1024 := by norm_num
  rw [format_size, format_size_loop_ge x _ _ (by nlinarith),
    format_size_loop_ge _ _ _ (by rw [le_div_iff₀ p]; nlinarith),
    format_size_loop_lt _ _ _ (by rw [div_lt_iff₀ p, div_lt_iff₀ p]; nlinarith),
    div_div, show (1024:ℚ) * 1024 = 1024 ^ 2 by norm_num]
  simp [String.append_assoc]

theorem format_size_GB (x : ℚ) (h1 : 1024 ^ 3 ≤ x) (h2 : x < 1024 ^ 4) :
    format_size x = fmt2 (x / 1024 ^ 3) ++ " GB" := by
  have p : (0:ℚ) < 1024 := by norm_num
  rw [format_size, format_size_loop_ge x _ _ (by nlinarith),
    format_size_loop_ge _ _ _ (by rw [le_div_iff₀ p]; nlinarith),
    format_size_loop_ge _ _ _ (by rw [le_div_iff₀ p, le_div_iff₀ p]; nlinarith),
    format_size_loop_lt _ _ _ (by rw [div_lt_iff₀ p, div_lt_iff₀ p, div_lt_iff₀ p]; nlinarith),
    div_div, div_div, show (1024:ℚ) * (1024 * 1024) = 1024 ^ 3 by norm_num]
  simp [String.append_assoc]

theorem format_size_TB (x : ℚ) (h1 : 1024 ^ 4 ≤ x) :
    format_size x = fmt2 (x / 1024 ^ 4) ++ " TB" := by
  have p : (0:ℚ) < 1024 := by norm_num
  rw [format_size, format_size_loop_ge x _ _ (by nlinarith),
    format_size_loop_ge _ _ _ (by rw [le_div_iff₀ p]; nlinarith),
    format_size_loop_ge _ _ _ (by rw [le_div_iff₀ p, le_div_iff₀ p]; nlinarith),
    format_size_loop_ge _ _ _ (by rw [le_div_iff₀ p, le_div_iff₀ p, le_div_iff₀ p]; nlinarith)]
  simp only [format_size_loop]
  rw [div_div, div_div, div_div, show (1024:ℚ) * (1024 * (1024 * 1024)) = 1024 ^ 4 by norm_num]

theorem already_processed_eq_false (stats : List Entry) (nm : String) :
    already_processed stats nm = false ↔ ∀ e ∈ stats, e.name ≠ nm := by
  simp [already_processed]

theorem not_mem_map_name (stats : List Entry) (nm : String)
    (h : already_processed stats nm = false) : nm ∉ stats.map Entry.name := by
  rw [already_processed_eq_false] at h
  simp only [List.mem_map, not_exists]
  intro e
  rintro ⟨he, hn⟩
  exact h e he hn

theorem step_of_already (engine : UploadedFile → EngineResult) (st : SessionState)
    (f : UploadedFile) (h : already_processed st.conversion_stats f.name = true) :
    step engine st f = st := by
  simp [step, h]

theorem step_of_fail (engine : UploadedFile → EngineResult) (st : SessionState)
    (f : UploadedFile) (msg : String)
    (h : already_processed st.conversion_stats f.name = false)
    (hp : process_file engine f = (false, msg)) :
    step engine st f =
      { st with errors := st.errors ++ [errorMessage f msg], calls := st.calls + 1 } := by
  simp [step, h, hp]

theorem step_of_success (engine : UploadedFile → EngineResult) (st : SessionState)
    (f : UploadedFile) (content : String)
    (h : already_processed st.conversion_stats f.name = false)
    (hp : process_file engine f = (true, content)) :
    step engine st f =
      { st with
        conversion_stats := st.conversion_stats ++
          [⟨f.name, f.size, content.utf8ByteSize, content⟩],
        calls := st.calls + 1 } := by
  simp [step, h, hp]

theorem step_stats_cases (engine : UploadedFile → EngineResult) (st : SessionState)
    (f : UploadedFile) :
    (step engine st f).conversion_stats = st.conversion_stats ∨
    (already_processed st.conversion_stats f.name = false ∧
      ∃ content, process_file engine f = (true, content) ∧
        (step engine st f).conversion_stats = st.conversion_stats ++
          [⟨f.name, f.size, content.utf8ByteSize, content⟩]) := by
  by_cases h : already_processed st.conversion_stats f.name
  · left
    rw [step_of_already engine st f h]
  · rcases hp : process_file engine f with ⟨b, content⟩
    cases b
    · left
      rw [step_of_fail engine st f content (by simpa using h) hp]
    · right
      refine ⟨by simpa using h, content, rfl, ?_⟩
      rw [step_of_success engine st f content (by simpa using h) hp]

theorem step_nodup (engine : UploadedFile → EngineResult) (st : SessionState)
    (f : UploadedFile) (h : (st.conversion_stats.map Entry.name).Nodup) :
    ((step engine st f).conversion_stats.map Entry.name).Nodup := by
  rcases step_stats_cases engine st f with hc | ⟨hap, content, hp, hc⟩
  · rw [hc]; exact h
  · rw [hc, List.map_append]
    have hnm := not_mem_map_name _ _ hap
    simp [List.nodup_append, h, hnm]

theorem runBatch_nodup (engine : UploadedFile → EngineResult)
    (files : List UploadedFile) :
    ∀ st : SessionState, (st.conversion_stats.map Entry.name).Nodup →
      (((runBatch engine st files).conversion_stats).map Entry.name).Nodup := by
  induction files with
  | nil => intro st h; exact h
  | cons f fs ih =>
    intro st h
    exact ih (step engine st f) (step_nodup engine st f h)

theorem runBatch_mem (engine : UploadedFile → EngineResult)
    (files : List UploadedFile) :
    ∀ (st : SessionState) (e : Entry),
      e ∈ (runBatch engine st files).conversion_stats →
      e ∈ st.conversion_stats ∨
        ∃ f, f ∈ files ∧ f.name = e.name ∧ process_file engine f = (true, e.content) ∧
          e.original_size = f.size ∧ e.converted_size = e.content.utf8ByteSize := by
  induction files with
  | nil => intro st e he; exact Or.inl he
  | cons f fs ih =>
    intro st e he
    rcases ih (step engine st f) e he with hin | ⟨g, hg, hgn, hgp, hgo, hgc⟩
    · rcases step_stats_cases engine st f with hc | ⟨hap, content, hp, hc⟩
      · rw [hc] at hin
        exact Or.inl hin
      · rw [hc] at hin
        rcases List.mem_append.mp hin with hin | hin
        · exact Or.inl hin
        · have hee := List.mem_singleton.mp hin
          refine Or.inr ⟨f, List.mem_cons_self f fs, ?_, ?_, ?_, ?_⟩
          · rw [hee]
          · rw [hee]
            exact hp
          · rw [hee]
          · rw [hee]
    · exact Or.inr ⟨g, List.mem_cons_of_mem f hg, hgn, hgp, hgo, hgc⟩

theorem step_stats_indep (engine : UploadedFile → EngineResult)
    (s : List Entry) (e1 : List String) (c1 : ℕ) (e2 : List String) (c2 : ℕ)
    (f : UploadedFile) :
    (step engine ⟨s, e1, c1⟩ f).conversion_stats =
      (step engine ⟨s, e2, c2⟩ f).conversion_stats := by
  by_cases h : already_processed s f.name
  · rw [step_of_already engine _ f h, step_of_already engine _ f h]
  · rcases hp : process_file engine f with ⟨b, content⟩
    cases b
    · rw [step_of_fail engine _ f content (by simpa using h) hp,
        step_of_fail engine _ f content (by simpa using h) hp]
    · rw [step_of_success engine _ f content (by simpa using h) hp,
        step_of_success engine _ f content (by simpa using h) hp]

theorem runBatch_stats_indep (engine : UploadedFile → EngineResult)
    (files : List UploadedFile) :
    ∀ (s : List Entry) (e1 : List String) (c1 : ℕ) (e2 : List String) (c2 : ℕ),
      (runBatch engine ⟨s, e1, c1⟩ files).conversion_stats =
        (runBatch engine ⟨s, e2, c2⟩ files).conversion_stats := by
  induction files with
  | nil => intro s e1 c1 e2 c2; rfl
  | cons f fs ih =>
    intro s e1 c1 e2 c2
    show (runBatch engine (step engine ⟨s, e1, c1⟩ f) fs).conversion_stats =
      (runBatch engine (step engine ⟨s, e2, c2⟩ f) fs).conversion_stats
    rcases hs1 : step engine ⟨s, e1, c1⟩ f with ⟨s1, er1, ca1⟩
    rcases hs2 : step engine ⟨s, e2, c2⟩ f with ⟨s2, er2, ca2⟩
    have hss : s1 = s2 := by
      have := step_stats_indep engine s e1 c1 e2 c2 f
      rw [hs1, hs2] at this
      exact this
    subst hss
    exact ih s1 er1 ca1 er2 ca2

/-- Claim C1: submitting a file whose name already has a ledger entry is a
no-op — the session state (ledger, errors, call count) is unchanged, so no
conversion call happens and the stored entry is neither overwritten nor
re-converted; and for any batch processed from a fresh session, the ledger
holds at most one entry per distinct name. -/
theorem idempotent_dedup :
    (∀ (engine : UploadedFile → EngineResult) (st : SessionState) (f : UploadedFile),
      already_processed st.conversion_stats f.name = true → step engine st f = st) ∧
    (∀ (engine : UploadedFile → EngineResult) (files : List UploadedFile),
      (((runBatch engine initState files).conversion_stats).map Entry.name).Nodup) :=
  ⟨fun engine st f h => step_of_already engine st f h,
   fun engine files => runBatch_nodup engine files initState (by simp [initState])⟩

theorem idempotent_dedup_witness :
    step (fun _ => EngineResult.raises "boom")
      ⟨[⟨"a.pdf", 3, 2, "hi"⟩], [], 1⟩ ⟨"a.pdf", [0, 1, 2]⟩ =
      ⟨[⟨"a.pdf", 3, 2, "hi"⟩], [], 1⟩ :=
  idempotent_dedup.1 (fun _ => EngineResult.raises "boom")
    ⟨[⟨"a.pdf", 3, 2, "hi"⟩], [], 1⟩ ⟨"a.pdf", [0, 1, 2]⟩ (by decide)

/-- Claim C2: on every engine behaviour, `process_file` acquires the
temporary artifact and releases it exactly once before returning — the
trace is always `[acquire, release]`, the release count is 1, the artifact
no longer exists on return, and the returned outcome is that of
`process_file`. -/
theorem artifact_release_exactly_once :
    ∀ (engine : UploadedFile → EngineResult) (f : UploadedFile),
      (process_file_run engine f).1 = process_file engine f ∧
      (process_file_run engine f).2.2 = [ArtifactEvent.acquire, ArtifactEvent.release] ∧
      (process_file_run engine f).2.2.count ArtifactEvent.release = 1 ∧
      (process_file_run engine f).2.1.tmpExists = false :=
  fun _ _ => ⟨rfl, rfl, rfl, rfl⟩

/-- Claim C3: an engine call returning no result, a result with an absent
text payload, or a result with empty text yields a Failure with message
exactly "Conversion yielded empty result."; and no Success ever carries
empty text. -/
theorem empty_result_rejection :
    (∀ (engine : UploadedFile → EngineResult) (f : UploadedFile),
      engine f = .noResult ∨ engine f = .converted none ∨ engine f = .converted (some "") →
      process_file engine f = (false, "Conversion yielded empty result.")) ∧
    (∀ (engine : UploadedFile → EngineResult) (f : UploadedFile) (t : String),
      process_file engine f = (true, t) → t ≠ "") := by
  constructor
  · intro engine f h
    rcases h with h | h | h <;> simp [process_file, h, emptyResultMsg]
  · intro engine f t h ht
    subst ht
    rcases he : engine f with msg | _ | tc
    · simp [process_file, he] at h
    · simp [process_file, he] at h
    · rcases tc with _ | t2
      · simp [process_file, he] at h
      · simp only [process_file, he] at h
        split_ifs at h with hb
        · simp at h
        · rw [Prod.mk.injEq] at h
          exact hb h.2

theorem empty_result_rejection_witness :
    process_file (fun _ => EngineResult.converted (some "")) ⟨"a.pdf", [0]⟩ =
      (false, "Conversion yielded empty result.") :=
  empty_result_rejection.1 (fun _ => EngineResult.converted (some "")) ⟨"a.pdf", [0]⟩
    (Or.inr (Or.inr rfl))

/-- Claim C4: a failed conversion is never stored — every ledger entry of a
session arose from a successful `process_file` call on a file of the batch,
and a name for which every matching file fails never appears in the
ledger. -/
theorem failure_non_persistence :
    (∀ (engine : UploadedFile → EngineResult) (files : List UploadedFile) (e : Entry),
      e ∈ (runBatch engine initState files).conversion_stats →
      ∃ f, f ∈ files ∧ f.name = e.name ∧ process_file engine f = (true, e.content)) ∧
    (∀ (engine : UploadedFile → EngineResult) (files : List UploadedFile) (nm : String),
      (∀ f, f ∈ files → f.name = nm → (process_file engine f).1 = false) →
      nm ∉ ((runBatch engine initState files).conversion_stats.map Entry.name)) := by
  constructor
  · intro engine files e he
    rcases runBatch_mem engine files initState e he with h0 | ⟨f, hf, hfn, hfp, _, _⟩
    · simp [initState] at h0
    · exact ⟨f, hf, hfn, hfp⟩
  · intro engine files nm hfail hmem
    rcases List.mem_map.mp hmem with ⟨e, he, hname⟩
    rcases runBatch_mem engine files initState e he with h0 | ⟨f, hf, hfn, hfp, _, _⟩
    · simp [initState] at h0
    · have hx := hfail f hf (by rw [hfn, hname])
      rw [hfp] at hx
      simp at hx

theorem failure_non_persistence_witness :
    "a.pdf" ∉ ((runBatch (fun _ => EngineResult.raises "boom") initState
      [⟨"a.pdf", [0, 1]⟩]).conversion_stats.map Entry.name) :=
  failure_non_persistence.2 (fun _ => EngineResult.raises "boom") [⟨"a.pdf", [0, 1]⟩]
    "a.pdf" (fun f hf _ => by rw [List.mem_singleton.mp hf]; decide)

/-- Claim C5: every engine fault is caught and becomes a Failure carrying
the engine message unmodified; a failing file contributes nothing to the
ledger and does not stop the rest of the batch (the ledger after processing
the batch with the failing file in front equals the ledger from processing
the remaining files); the failure is surfaced as a per-file error message
naming the file and the reason. -/
theorem engine_failure_caught :
    (∀ (engine : UploadedFile → EngineResult) (f : UploadedFile) (msg : String),
      engine f = EngineResult.raises msg → process_file engine f = (false, msg)) ∧
    (∀ (engine : UploadedFile → EngineResult) (st : SessionState) (f : UploadedFile)
      (fs : List UploadedFile) (msg : String),
      process_file engine f = (false, msg) →
      (runBatch engine st (f :: fs)).conversion_stats =
        (runBatch engine st fs).conversion_stats) ∧
    (∀ (engine : UploadedFile → EngineResult) (st : SessionState) (f : UploadedFile)
      (msg : String),
      process_file engine f = (false, msg) →
      already_processed st.conversion_stats f.name = false →
      (step engine st f).errors = st.errors ++ [errorMessage f msg]) := by
  refine ⟨?_, ?_, ?_⟩
  · intro engine f msg h
    simp [process_file, h]
  · intro engine st f fs msg hp
    obtain ⟨s, er, ca⟩ := st
    show (runBatch engine (step engine ⟨s, er, ca⟩ f) fs).conversion_stats = _
    by_cases hap : already_processed s f.name
    · rw [step_of_already engine _ f hap]
    · rw [step_of_fail engine _ f msg (by simpa using hap) hp]
      exact runBatch_stats_indep engine fs s (er ++ [errorMessage f msg]) (ca + 1) er ca
  · intro engine st f msg hp hap
    rw [step_of_fail engine st f msg hap hp]

theorem engine_failure_caught_witness :
    process_file (fun _ => EngineResult.raises "boom") ⟨"a.pdf", [0]⟩ = (false, "boom") :=
  engine_failure_caught.1 (fun _ => EngineResult.raises "boom") ⟨"a.pdf", [0]⟩ "boom" rfl

/-- Claim C6: `format_size` steps through B, KB, MB, GB by repeated division
by 1024 while the value is at least 1024, stops at TB with no further
escalation, and renders the final value with `fmt2` (exactly two decimal
places), a space and the unit; with the four concrete values
`format_size 0 = "0.00 B"`, `format_size 1024 = "1.00 KB"`,
`format_size 1536 = "1.50 KB"` and `format_size (1024 ^ 4) = "1.00 TB"`. -/
theorem format_size_conformance :
    (∀ n : ℕ,
      (n < 1024 → format_size (n : ℚ) = fmt2 (n : ℚ) ++ " B") ∧
      (1024 ≤ n → n < 1024 ^ 2 → format_size (n : ℚ) = fmt2 ((n : ℚ) / 1024) ++ " KB") ∧
      (1024 ^ 2 ≤ n → n < 1024 ^ 3 → format_size (n : ℚ) = fmt2 ((n : ℚ) / 1024 ^ 2) ++ " MB") ∧
      (1024 ^ 3 ≤ n → n < 1024 ^ 4 → format_size (n : ℚ) = fmt2 ((n : ℚ) / 1024 ^ 3) ++ " GB") ∧
      (1024 ^ 4 ≤ n → format_size (n : ℚ) = fmt2 ((n : ℚ) / 1024 ^ 4) ++ " TB")) ∧
    format_size 0 = "0.00 B" ∧ format_size 1024 = "1.00 KB" ∧
    format_size 1536 = "1.50 KB" ∧ format_size (1024 ^ 4) = "1.00 TB" := by
  refine ⟨fun n => ⟨?_, ?_, ?_, ?_, ?_⟩, ?_, ?_, ?_, ?_⟩
  · intro h
    exact format_size_B _ (by exact_mod_cast h)
  · intro h1 h2
    exact format_size_KB _ (by exact_mod_cast h1) (by exact_mod_cast h2)
  · intro h1 h2
    exact format_size_MB _ (by exact_mod_cast h1) (by exact_mod_cast h2)
  · intro h1 h2
    exact format_size_GB _ (by exact_mod_cast h1) (by exact_mod_cast h2)
  · intro h1
    exact format_size_TB _ (by exact_mod_cast h1)
  · rw [format_size_B 0 (by norm_num), fmt2_whole 0 0 le_rfl (by norm_num)]
    decide
  · rw [format_size_KB 1024 (by norm_num) (by norm_num),
      show (1024:ℚ)/1024 = 1 by norm_num, fmt2_whole 100 1 (by norm_num) (by norm_num)]
    decide
  · rw [format_size_KB 1536 (by norm_num) (by norm_num),
      show (1536:ℚ)/1024 = 3/2 by norm_num, fmt2_whole 150 (3/2) (by norm_num) (by norm_num)]
    decide
  · rw [format_size_TB (1024 ^ 4) le_rfl,
      show (1024:ℚ)^4/1024^4 = 1 by norm_num, fmt2_whole 100 1 (by norm_num) (by norm_num)]
    decide

theorem format_size_conformance_witness :
    format_size ((1536 : ℕ) : ℚ) = fmt2 (((1536 : ℕ) : ℚ) / 1024) ++ " KB" :=
  (format_size_conformance.1 1536).2.1 (by decide) (by decide)

/-- Claim C7: for a ledger entry with positive original size, the reduction
is `(original - converted) / original * 100`, the displayed string is that
value rendered by `fmt1` (one decimal place) with the "% smaller" suffix,
and the entry is classified as an improvement (green highlight) exactly
when the reduction is strictly positive. -/
theorem reduction_formula_and_classification (e : Entry) (h : 0 < e.original_size) :
    reduction e = (((e.original_size : ℚ) - (e.converted_size : ℚ)) / (e.original_size : ℚ)) * 100 ∧
    (sizeRow e).reduction_str = fmt1 (reduction e) ++ "% smaller" ∧
    ((sizeRow e).color_class = "highlight-green" ↔ 0 < reduction e) := by
  refine ⟨rfl, ?_, ?_⟩
  · unfold sizeRow
    rw [if_pos h]
  · unfold sizeRow
    rw [if_pos h]
    by_cases hr : 0 < reduction e <;> simp [hr]

theorem reduction_formula_and_classification_witness :
    (sizeRow ⟨"a.pdf", 1000, 400, "c"⟩).reduction_str =
      fmt1 (reduction ⟨"a.pdf", 1000, 400, "c"⟩) ++ "% smaller" ∧
    ((sizeRow ⟨"a.pdf", 1000, 400, "c"⟩).color_class = "highlight-green" ↔
      0 < reduction ⟨"a.pdf", 1000, 400, "c"⟩) :=
  (reduction_formula_and_classification ⟨"a.pdf", 1000, 400, "c"⟩ (by decide)).2

/-- Claim C8: for a ledger entry with original size 0, the size report shows
the literal "N/A" and the entry is not classified as an improvement (its
highlight class is empty, not green); the reduction branch that divides is
never entered. -/
theorem zero_original_size_reduction_na (e : Entry) (h : e.original_size = 0) :
    (sizeRow e).reduction_str = "N/A" ∧ (sizeRow e).color_class = "" ∧
    (sizeRow e).color_class ≠ "highlight-green" := by
  unfold sizeRow
  rw [if_neg (by rw [h]; exact lt_irrefl 0)]
  refine ⟨rfl, rfl, fun hc => ?_⟩
  have hc2 : ("" : String) = "highlight-green" := hc
  exact absurd hc2 (by decide)

theorem zero_original_size_reduction_na_witness :
    (sizeRow ⟨"empty.pdf", 0, 5, "x"⟩).reduction_str = "N/A" ∧
    (sizeRow ⟨"empty.pdf", 0, 5, "x"⟩).color_class = "" ∧
    (sizeRow ⟨"empty.pdf", 0, 5, "x"⟩).color_class ≠ "highlight-green" :=
  zero_original_size_reduction_na ⟨"empty.pdf", 0, 5, "x"⟩ rfl

/-- Claim C9: every ledger entry of a session stores as `converted_size`
the UTF-8 byte length of its converted text, and as `original_size` the
byte length of the uploaded file it came from. -/
theorem ledger_size_accounting :
    ∀ (engine : UploadedFile → EngineResult) (files : List UploadedFile) (e : Entry),
      e ∈ (runBatch engine initState files).conversion_stats →
      e.converted_size = e.content.utf8ByteSize ∧
      ∃ f, f ∈ files ∧ f.name = e.name ∧ e.original_size = f.size ∧
        process_file engine f = (true, e.content) := by
  intro engine files e he
  rcases runBatch_mem engine files initState e he with h0 | ⟨f, hf, hfn, hfp, ho, hc⟩
  · simp [initState] at h0
  · exact ⟨hc, f, hf, hfn, ho, hfp⟩

theorem ledger_size_accounting_witness :
    (⟨"a.pdf", 2, 2, "hi"⟩ : Entry).converted_size =
      ("hi" : String).utf8ByteSize ∧
    ∃ f, f ∈ [(⟨"a.pdf", [0, 1]⟩ : UploadedFile)] ∧
      f.name = (⟨"a.pdf", 2, 2, "hi"⟩ : Entry).name ∧
      (⟨"a.pdf", 2, 2, "hi"⟩ : Entry).original_size = f.size ∧
      process_file (fun _ => EngineResult.converted (some "hi")) f =
        (true, (⟨"a.pdf", 2, 2, "hi"⟩ : Entry).content) :=
  ledger_size_accounting (fun _ => EngineResult.converted (some "hi"))
    [⟨"a.pdf", [0, 1]⟩] ⟨"a.pdf", 2, 2, "hi"⟩ (by decide)

/-- Claim C10: for a ledger entry whose converted text grew
(`0 < original_size < converted_size`), the reduction is negative, the
displayed string is the `fmt1`-rendered negative percentage still followed
by "% smaller" (so it begins with a minus sign), and the entry is
classified as not an improvement (red highlight); doubling in size yields
"-100.0% smaller". -/
theorem growth_negative_reduction :
    (∀ e : Entry, 0 < e.original_size → e.original_size < e.converted_size →
      reduction e < 0 ∧
      (sizeRow e).reduction_str = fmt1 (reduction e) ++ "% smaller" ∧
      (∃ rest, fmt1 (reduction e) = "-" ++ rest) ∧
      (sizeRow e).color_class = "highlight-red") ∧
    (sizeRow ⟨"doc.pdf", 100, 200, "t"⟩).reduction_str = "-100.0% smaller" := by
  constructor
  · intro e h1 h2
    have ho : (0:ℚ) < (e.original_size : ℚ) := by exact_mod_cast h1
    have hc : (e.original_size : ℚ) < (e.converted_size : ℚ) := by exact_mod_cast h2
    have hneg : reduction e < 0 := by
      unfold reduction
      apply mul_neg_of_neg_of_pos _ (by norm_num : (0:ℚ) < 100)
      exact div_neg_of_neg_of_pos (by linarith) ho
    refine ⟨hneg, ?_, fmt1_neg_starts _ hneg, ?_⟩
    · unfold sizeRow
      rw [if_pos h1]
    · unfold sizeRow
      rw [if_pos h1]
      simp only
      rw [if_neg (not_lt.mpr (le_of_lt hneg))]
  · have hred : reduction ⟨"doc.pdf", 100, 200, "t"⟩ = -100 := by
      unfold reduction
      norm_num
    unfold sizeRow
    rw [if_pos (by norm_num : 0 < (⟨"doc.pdf", 100, 200, "t"⟩ : Entry).original_size)]
    simp only
    rw [hred, fmt1_neg_whole 1000 (-100) (by norm_num) (by norm_num)]
    decide

theorem growth_negative_reduction_witness :
    reduction ⟨"doc2.pdf", 100, 200, "t"⟩ < 0 ∧
    (sizeRow ⟨"doc2.pdf", 100, 200, "t"⟩).reduction_str =
      fmt1 (reduction ⟨"doc2.pdf", 100, 200, "t"⟩) ++ "% smaller" ∧
    (∃ rest, fmt1 (reduction ⟨"doc2.pdf", 100, 200, "t"⟩) = "-" ++ rest) ∧
    (sizeRow ⟨"doc2.pdf", 100, 200, "t"⟩).color_class = "highlight-red" :=
  growth_negative_reduction.1 ⟨"doc2.pdf", 100, 200, "t"⟩ (by decide) (by decide)
